import Mathlib

/-!
Verification development for the Eleventy build-tooling repository
(`src/script/helper/EleventyUtil.mjs` and `src/script/build/helper/toIco.js`).

The JavaScript source is shallowly embedded: JavaScript runtime values are
modelled by the inductive type `JSVal`, objects by insertion-ordered
association lists, thrown exceptions by `Except String`, and the front-matter
regular expression of `renderTemplateFunctionFactory` by an executable
matcher with the same backtracking semantics.  Character-level operations
(`toLowerCase`, `trim`, the regex classes) are modelled for the ASCII range,
which is the range exercised by the source and by all inputs considered here.
-/

/-- Model of a JavaScript runtime value.  Functions are opaque and identified
by a numeric tag. -/
inductive JSVal where
  | undefined
  | null
  | bool (b : Bool)
  | num (n : Int)
  | str (s : String)
  | arr (elems : List JSVal)
  | obj (fields : List (String × JSVal))
  | fn (id : Nat)
  deriving Repr

/-- A JavaScript object: string keys to values, in insertion order. -/
abbrev JSObj := List (String × JSVal)

/-- The JavaScript `typeof` operator.  Note `typeof null` is `"object"`. -/
def jsTypeof : JSVal → String
  | .undefined => "undefined"
  | .null => "object"
  | .bool _ => "boolean"
  | .num _ => "number"
  | .str _ => "string"
  | .arr _ => "object"
  | .obj _ => "object"
  | .fn _ => "function"

/-- JavaScript truthiness.  `undefined`, `null`, `false`, `0` and the empty
string are falsy; every object, array and function is truthy. -/
def jsTruthy : JSVal → Bool
  | .undefined => false
  | .null => false
  | .bool b => b
  | .num n => n != 0
  | .str s => s ≠ ""
  | .arr _ => true
  | .obj _ => true
  | .fn _ => true

/-- The JavaScript `a || b` operator. -/
def jsOr (a b : JSVal) : JSVal := if jsTruthy a then a else b

/-- `Array.isArray`. -/
def jsIsArray : JSVal → Bool
  | .arr _ => true
  | _ => false

/-- Strict equality test against `null`. -/
def jsIsNull : JSVal → Bool
  | .null => true
  | _ => false

/-- Test for the `undefined` value (equivalently `typeof v === "undefined"`). -/
def jsIsUndefined : JSVal → Bool
  | .undefined => true
  | _ => false

/-- Property read `o[k]` on an object: the value of the first binding of the
key, or `undefined` when absent (object key lists are kept duplicate-free, so
first and last binding coincide for well-formed objects). -/
def jsGetF : JSObj → String → JSVal
  | [], _ => .undefined
  | (k1, v) :: rest, k => if k1 = k then v else jsGetF rest k

/-- Property read on an object, returning `none` when the key is absent. -/
def jsGetF? : JSObj → String → Option JSVal
  | [], _ => none
  | (k1, v) :: rest, k => if k1 = k then some v else jsGetF? rest k

/-- Property read on an arbitrary value (used only with object values here). -/
def jsGet (v : JSVal) (k : String) : JSVal :=
  match v with
  | .obj fields => jsGetF fields k
  | _ => .undefined

/-- Property write `o[k] = v`: updates the first binding of the key in place,
or appends a new binding, exactly the JavaScript own-property write order. -/
def jsSetF : JSObj → String → JSVal → JSObj
  | [], k, v => [(k, v)]
  | (k1, v1) :: rest, k, v =>
    if k1 = k then (k, v) :: rest else (k1, v1) :: jsSetF rest k v

/-- `delete o[k]`. -/
def jsDeleteF (o : JSObj) (k : String) : JSObj :=
  o.filter (fun p => !(p.1 = k : Bool))

/-- The bindings enumerated from position `i` on when a list-like value is a
source of `Object.assign`: index keys `"0"`, `"1"`, … in ascending order. -/
def jsIndexBindingsFrom (i : Nat) : List JSVal → JSObj
  | [] => []
  | v :: rest => (toString i, v) :: jsIndexBindingsFrom (i + 1) rest

/-- The own enumerable string-keyed properties contributed by a value when it
is a source argument of `Object.assign`: an object contributes its bindings,
an array and a string contribute their index properties, and every other
primitive (and plain function values) contributes nothing. -/
def jsAssignSource : JSVal → JSObj
  | .obj fields => fields
  | .arr xs => jsIndexBindingsFrom 0 xs
  | .str s => jsIndexBindingsFrom 0 (s.data.map (fun c => .str (String.mk [c])))
  | _ => []

/-- `Object.assign(target, src)` on binding lists: each binding of `src` is
written into `target` in order, later writes overwriting earlier ones. -/
def jsAssignF (target : JSObj) (src : JSObj) : JSObj :=
  src.foldl (fun acc kv => jsSetF acc kv.1 kv.2) target

/-- Index read `v[i]` with a numeric index: array element, string character
(as a one-character string), or `undefined`. -/
def jsIndex (v : JSVal) (i : Nat) : JSVal :=
  match v with
  | .arr xs => match xs.get? i with
    | some x => x
    | none => .undefined
  | .str s => match s.data.get? i with
    | some c => .str (String.mk [c])
    | none => .undefined
  | _ => .undefined

/-- JavaScript string coercion as used by template-literal interpolation of
the delimiter values (only string delimiters occur in practice). -/
def jsToString : JSVal → String
  | .undefined => "undefined"
  | .null => "null"
  | .bool b => if b then "true" else "false"
  | .num n => toString n
  | .str s => s
  | .arr _ => ""
  | .obj _ => "[object Object]"
  | .fn _ => "function"

/-- `String.prototype.toLowerCase`, modelled on the ASCII range. -/
def jsToLower (s : String) : String := String.mk (s.data.map Char.toLower)

/-- A whitespace character as removed by `String.prototype.trim` (ASCII
range). -/
def jsIsSpace (c : Char) : Bool :=
  c = ' ' || c = '\t' || c = '\n' || c = '\r' || c = '\x0b' || c = '\x0c'

/-- `String.prototype.trim`, modelled on the ASCII range. -/
def jsTrim (s : String) : String :=
  String.mk (((s.data.dropWhile jsIsSpace).reverse.dropWhile jsIsSpace).reverse)

/-- Default front matter language (`defaultFrontMatterLanguage` in the
source). -/
def defaultFrontMatterLanguage : String := "yaml"

/-- Default front matter delimiter (`defaultFrontMatterDelimiter` in the
source). -/
def defaultFrontMatterDelimiter : String := "---"

/-- `frontMatterOptionLanguage` from `EleventyUtil.mjs` (lines 346-388):
derives the front-matter language entry of the normalized options record
from a caller-supplied options value.  Thrown errors carry the leading text
of the source message (the `util.inspect` dump of the offending value is
elided). -/
def frontMatterOptionLanguage (options : JSVal) : Except String JSVal :=
  if jsTruthy options then
    match
      (if jsTypeof options = "object" then
        .ok (jsOr (jsGet options "language")
              (jsOr (jsGet options "lang") (.str defaultFrontMatterLanguage)))
      else if jsTypeof options = "string" then
        .ok (jsOr options (.str defaultFrontMatterLanguage))
      else
        .error "frontMatterOptionLanguage: invalid options" :
        Except String JSVal) with
    | .error e => .error e
    | .ok language =>
      match language with
      | .str l =>
        let l := jsTrim (jsToLower l)
        if l = "node" || l = "javascript" || l = "js" then
          .ok (.obj [("language", .str "javascript")])
        else if l = "legacy" || l = "jslegacy" then
          .ok (.obj [("language", .str "jsLegacy")])
        else if l = "coffee" || l = "coffeescript" || l = "cs" then
          .ok (.obj [("language", .str "coffee")])
        else if l = "cson" || l = "coffee-json" || l = "coffeejson" ||
            l = "coffee-obj" || l = "coffeeobj" || l = "csobj" then
          .ok (.obj [("language", .str "cson")])
        else if l = defaultFrontMatterLanguage || l = "yml" then
          .ok (.obj [])
        else
          .ok (.obj [("language", .str l)])
      | _ => .error "frontMatterOptionLanguage: invalid language"
  else
    .ok (.obj [])

/-- Strict-equality test of a value against the default delimiter string,
as in `delimiters[0] === defaultFrontMatterDelimiter`. -/
def isDefaultDelim : JSVal → Bool
  | .str s => s = defaultFrontMatterDelimiter
  | _ => false

/-- `frontMatterOptionDelimiters` from `EleventyUtil.mjs` (lines 398-429):
derives the delimiters entry of the normalized options record.  A length-two
delimiter list is used as is (the source carries only a TODO comment for the
excerpt interaction there). -/
def frontMatterOptionDelimiters (options : JSVal) : Except String JSVal :=
  if jsTruthy options then
    match
      (if jsIsArray options then .ok options
      else if jsTypeof options = "object" then
        .ok (jsOr (jsGet options "delims")
              (jsOr (jsGet options "delimiters")
                (.arr [.str defaultFrontMatterDelimiter,
                       .str defaultFrontMatterDelimiter])))
      else if jsTypeof options = "string" then .ok (.arr [options, options])
      else .error "invalid options" : Except String JSVal) with
    | .error e => .error e
    | .ok delims0 =>
      let delims : List JSVal :=
        match delims0 with
        | .arr xs => xs
        | v => [v]
      match delims with
      | [] => .ok (.obj [])
      | [a] =>
        if isDefaultDelim a && isDefaultDelim a then .ok (.obj [])
        else .ok (.obj [("delimiters", .arr [a, a])])
      | [a, b] =>
        if isDefaultDelim a && isDefaultDelim b then .ok (.obj [])
        else .ok (.obj [("delimiters", .arr [a, b])])
      | _ => .error "invalid options"
  else
    .ok (.obj [])

/-- `frontMatterOptionExcerpt` from `EleventyUtil.mjs` (lines 435-502):
derives the excerpt entries of the normalized options record.  The local
variables `excerpt`, `excerpt_separator` and `excerpt_alias` of the source
are threaded explicitly; `undefined` marks an unset variable. -/
def frontMatterOptionExcerpt (options : JSVal) : Except String JSVal :=
  if jsTruthy options then
    match
      (if jsTypeof options = "object" then
        let e := jsGet options "excerpt"
        .ok (if jsTypeof e = "boolean" then e else jsOr e .undefined,
             jsOr (jsGet options "excerpt_separator") .undefined,
             jsOr (jsGet options "excerpt_alias") .undefined)
      else if jsTypeof options = "boolean" then
        .ok (options, .undefined, .undefined)
      else if jsTypeof options = "string" then
        .ok (.bool (jsTruthy options),
             if jsTruthy options then options else .undefined, .undefined)
      else if jsTypeof options = "function" then
        .ok (options, .undefined, .undefined)
      else
        .error "frontMatterOptionExcerpt: invalid excerpt" :
        Except String (JSVal × JSVal × JSVal)) with
    | .error e => .error e
    | .ok (excerpt, sep0, alias0) =>
      match
        (if jsTruthy excerpt then
          match
            (if jsTypeof excerpt = "string" then
              .ok ([("excerpt", JSVal.bool true)],
                   if isDefaultDelim excerpt then sep0 else excerpt)
            else if !(jsTypeof excerpt = "boolean") &&
                !(jsTypeof excerpt = "function") then
              .error "frontMatterOptionExcerpt: invalid excerpt"
            else
              .ok ([("excerpt", excerpt)], sep0) :
              Except String (JSObj × JSVal)) with
          | .error e => .error e
          | .ok (result, sep) =>
            if jsTruthy sep && !(isDefaultDelim sep) then
              .ok (jsAssignF result [("excerpt_separator", sep)])
            else .ok result
        else if !(jsTypeof excerpt = "boolean") && jsTruthy sep0 &&
            jsTypeof sep0 = "string" then
          if !(isDefaultDelim sep0) then
            .ok [("excerpt", .bool true), ("excerpt_separator", sep0)]
          else .ok [("excerpt", .bool true)]
        else .ok ([] : JSObj) : Except String JSObj) with
      | .error e => .error e
      | .ok result =>
        if jsTruthy (jsGetF result "excerpt") then
          if jsTruthy alias0 then
            if !(jsTypeof alias0 = "string") then
              .error "frontMatterOptionExcerpt: invalid excerpt_alias"
            else if !(match alias0 with
                | .str a => (a = "page.excerpt" : Bool)
                | _ => false) then
              .ok (.obj (jsSetF result "excerpt_alias" alias0))
            else .ok (.obj result)
          else .ok (.obj result)
        else .ok (.obj result)
  else
    .ok (.obj [])

/-- Matches a literal delimiter string at the head of the character list,
returning the remainder. -/
def stripLit : List Char → List Char → Option (List Char)
  | [], l => some l
  | _ :: _, [] => none
  | c :: cs, x :: xs => if c = x then stripLit cs xs else none

/-- Matches the regex fragment `\r?\n` (greedy optional carriage return
followed by a mandatory line feed), returning the remainder. -/
def stripNewline : List Char → Option (List Char)
  | '\r' :: '\n' :: rest => some rest
  | '\n' :: rest => some rest
  | _ => none

/-- A word character of the regex class `\w` (ASCII letters, digits,
underscore). -/
def isWordChar (c : Char) : Bool := c.isAlphanum || c = '_'

/-- Matches the regex group `([^\-\r\n]\w*)?` greedily: one character other
than a hyphen, carriage return or line feed, followed by the maximal run of
word characters.  Returns the captured characters and the remainder, or
`none` when the first character is excluded (the group then does not
participate). -/
def matchLangTag : List Char → Option (List Char × List Char)
  | [] => none
  | c :: rest =>
    if c ≠ '-' && c ≠ '\r' && c ≠ '\n' then
      some (c :: rest.takeWhile isWordChar, rest.dropWhile isWordChar)
    else none

/-- Matches the opening delimiter line `OPEN([^\-\r\n]\w*)?\r?\n`: the open
delimiter, an optional language tag, then a newline.  When the language tag
participates but no newline follows it, the regex backtracks to the
tag-absent alternative (included for fidelity although a newline can never
start a tag). -/
def matchOpenLine (openDelim l : List Char) :
    Option (Option (List Char) × List Char) :=
  match stripLit openDelim l with
  | none => none
  | some l1 =>
    match matchLangTag l1 with
    | some (tag, l2) =>
      match stripNewline l2 with
      | some l3 => some (some tag, l3)
      | none =>
        match stripNewline l1 with
        | some l3 => some (none, l3)
        | none => none
    | none =>
      match stripNewline l1 with
      | some l3 => some (none, l3)
      | none => none

/-- Matches the regex fragment `(?:([\s\S]*?)?\r?\n)?CLOSE` by lazy growth of
the matter capture: finds the least split point at which a newline followed
by the close delimiter matches, returning the captured matter and the
remainder after the close delimiter. -/
def findMatterClose (closeDelim : List Char) : List Char →
    Option (List Char × List Char)
  | [] => none
  | c :: tl =>
    match
      (match stripNewline (c :: tl) with
      | some l1 => stripLit closeDelim l1
      | none => none) with
    | some rest => some ([], rest)
    | none =>
      match findMatterClose closeDelim tl with
      | some (m, rest) => some (c :: m, rest)
      | none => none

/-- Matches the trailing `(?:\r?\n)?` after the close delimiter. -/
def skipOptNewline (l : List Char) : List Char :=
  match stripNewline l with
  | some rest => rest
  | none => l

/-- The front-matter regular expression of `renderTemplateFunctionFactory`
(line 766 of `EleventyUtil.mjs`), with the delimiters taken as literal text:
`^(?:OPEN([^\-\r\n]\w*)?\r?\n(?:([\s\S]*?)?\r?\n)?CLOSE(?:\r?\n)?)?([\s\S]*)$`.
Returns `none` when the optional front-matter block does not match (the
whole input is then the body), otherwise the captured language tag, the
captured matter and the remaining content.  A matter capture of `none`
arises when the close delimiter directly follows the opening line. -/
def frontMatterRegexMatch (openDelim closeDelim l : List Char) :
    Option (Option (List Char) × Option (List Char) × List Char) :=
  match matchOpenLine openDelim l with
  | none => none
  | some (tag, l1) =>
    match findMatterClose closeDelim l1 with
    | some (m, rest) => some (tag, some m, skipOptNewline rest)
    | none =>
      match stripLit closeDelim l1 with
      | some rest => some (tag, none, skipOptNewline rest)
      | none => none

/-- A front-matter parse engine as stored in the `engines` table: either a
bare function or an object with a `parse` member (`parseEngine` table and
`frontMatterOptionEngines` in the source; the parse functions themselves are
external libraries and stay abstract). -/
inductive ParseEngine where
  | fnE (f : String → Except String JSVal)
  | objE (p : String → Except String JSVal)

/-- The registered engines table: notation names to engines. -/
abbrev Engines := List (String × ParseEngine)

/-- Lookup `engines[language]`, `none` when no engine is registered. -/
def lookupEngine : Engines → String → Option ParseEngine
  | [], _ => none
  | (n, e) :: rest, k => if n = k then some e else lookupEngine rest k

/-- The message of the TypeError raised by `parseEngine.parse(...)` when
`engines[parsed.language]` is `undefined` (property access on undefined). -/
def missingEngineMsg : String := "Cannot read properties of undefined"

/-- The structured result object built by the render template function
(`parsed` in the source). -/
structure ParsedTemplate where
  input : String
  language : String
  matter : String
  content : String
  matterRendered : String
  data : JSVal
  rendered : String
  deriving Repr

/-- The delimiter pair used by the render template function:
`options.delimiters || [defaultFrontMatterDelimiter, defaultFrontMatterDelimiter]`,
indexed at `0` and `1` and interpolated into the regex as text. -/
def fmDelims (options : JSObj) : String × String :=
  let d := jsOr (jsGetF options "delimiters")
    (.arr [.str defaultFrontMatterDelimiter, .str defaultFrontMatterDelimiter])
  (jsToString (jsIndex d 0), jsToString (jsIndex d 1))

/-- The language, matter and content fields derived from the front-matter
match (`parsed.language`, `parsed.matter`, `parsed.content` at lines 767-769
of the source): each capture defaults through `||` when absent or empty. -/
def fmParts (options : JSObj) (input : String) : String × String × String :=
  let d := fmDelims options
  match frontMatterRegexMatch d.1.data d.2.data input.data with
  | some (tag, m, content) =>
    let langRaw := String.mk (tag.getD [])
    ((if langRaw = "" then defaultFrontMatterLanguage else langRaw),
     String.mk (m.getD []), String.mk content)
  | none => (defaultFrontMatterLanguage, "", input)

/-- The underlying template engine call `render(text, data, templateLang)`
(the bound `renderTemplate` shortcode of the render plugin), kept abstract:
it receives the text, the effective data context and the template language
override, and may fail. -/
abbrev RenderFn := String → JSObj → JSVal → Except String String

/-- The front-matter phase of the render template function (the first `try`
block, lines 764-781 of the source, without the final context merge): render
the raw matter through the template engine, look up the parse engine under
the detected language, and parse the rendered matter.  A missing engine
raises the TypeError of an undefined property access. -/
def renderFrontPhase (render : RenderFn) (engines : Engines) (options : JSObj)
    (data : JSObj) (templateLang : JSVal) (input : String) :
    Except String (String × JSVal) :=
  let parts := fmParts options input
  match render parts.2.1 data templateLang with
  | .error e => .error e
  | .ok mr =>
    match lookupEngine engines parts.1 with
    | none => .error missingEngineMsg
    | some (.objE p) =>
      match p mr with
      | .error e => .error e
      | .ok d => .ok (mr, d)
    | some (.fnE f) =>
      match f mr with
      | .error e => .error e
      | .ok d => .ok (mr, d)

/-- The body of the render template function after argument normalization
(lines 762-793 of the source): split the input, render and parse the front
matter (errors of this phase are re-raised with the front-matter context
message), merge the parsed data into the effective context, render the body
(errors re-raised with the render context message), and return the
structured result. -/
def renderTemplateCore (render : RenderFn) (engines : Engines) (options : JSObj)
    (data : JSObj) (templateLang : JSVal) (input : String) :
    Except String ParsedTemplate :=
  let parts := fmParts options input
  match renderFrontPhase render engines options data templateLang input with
  | .error e => .error ("cannot parse front matter of template: " ++ e)
  | .ok (mr, pd) =>
    let data2 := jsAssignF data (jsAssignSource pd)
    match render parts.2.2 data2 templateLang with
    | .error e => .error ("cannot render template: " ++ e)
    | .ok r => .ok ⟨input, parts.1, parts.2.1, parts.2.2, mr, pd, r⟩

/-- The leading normalization of the extra arguments (line 702 of the
source): `undefined` entries are replaced by `null`. -/
def mapRenderArgs (args : List JSVal) : List JSVal :=
  args.map (fun a => match a with | .undefined => .null | a => a)

/-- An extra argument of a type the render template function rejects:
neither a string, nor object-typed, nor boolean `false` (line 703). -/
def invalidRenderArg (a : JSVal) : Bool :=
  !(jsTypeof a == "string") && !(jsTypeof a == "object") &&
    (!(jsTypeof a == "boolean") || jsTruthy a)

/-- An extra argument taken as the template-language override: a string or
boolean `false` (line 706). -/
def langOverrideArg (a : JSVal) : Bool :=
  jsTypeof a == "string" || (jsTypeof a == "boolean" && !jsTruthy a)

/-- An extra argument of JavaScript type `object` (line 718); this includes
`null` (and mapped `undefined`) placeholders and arrays. -/
def objectTypedArg (a : JSVal) : Bool := jsTypeof a == "object"

/-- The or-empty-object defaulting applied to the data and options
positions: a falsy value is replaced by an empty object. -/
def jsOrEmptyObj (v : JSVal) : JSVal := if jsTruthy v then v else .obj []

/-- The argument-disambiguation logic of the render template function
(lines 699-757 of the source): from the extra positional arguments derive
the template language override, the effective data object and the options
object.  With no extra arguments the defaults apply (the configured
front-matter parsing options minus the engines entry).  The unreachable
fall-through of the source switch (four or more object-typed arguments,
which leaves `options` undefined and faults on the later property access)
is modelled by the corresponding TypeError message. -/
def parseRenderArgs (defaultData : JSObj) (defaultOptions : JSObj)
    (args : List JSVal) : Except String (JSVal × JSObj × JSObj) :=
  if args.length > 0 then
    let margs := mapRenderArgs args
    if (margs.filter invalidRenderArg).length > 0 then .error "invalid arguments"
    else
      match
        (match margs.filter langOverrideArg with
        | [] => .ok (.bool false, false)
        | [a] => .ok (a, true)
        | _ => .error "invalid arguments" :
          Except String (JSVal × Bool)) with
      | .error e => .error e
      | .ok (tl0, isSet0) =>
        match
          (match margs.filter objectTypedArg with
          | [] => .ok (defaultData, [], isSet0)
          | [o1] =>
            .ok (jsAssignF defaultData (jsAssignSource (jsOrEmptyObj o1)),
                 [], isSet0)
          | [o1, o2] =>
            .ok (jsAssignF defaultData (jsAssignSource (jsOrEmptyObj o1)),
                 jsAssignF [] (jsAssignSource (jsOrEmptyObj o2)), isSet0)
          | [o1, o2, o3] =>
            if jsIsNull o1 || jsIsNull o2 || jsIsNull o3 then
              let dataOptionsArg :=
                [o1, o2, o3].filter (fun a => !(jsIsNull a))
              .ok (jsAssignF defaultData
                     (jsAssignSource (jsOrEmptyObj (dataOptionsArg.getD 0 .undefined))),
                   jsAssignF []
                     (jsAssignSource (jsOrEmptyObj (dataOptionsArg.getD 1 .undefined))),
                   true)
            else .error "invalid arguments"
          | _ => .error missingEngineMsg :
            Except String (JSObj × JSObj × Bool)) with
        | .error e => .error e
        | .ok (data, options, isSet) =>
          let otl := jsGetF options "templateLang"
          if jsIsUndefined otl then .ok (tl0, data, options)
          else if isSet then .error "invalid arguments"
          else if jsTypeof otl == "string" ||
              (jsTypeof otl == "boolean" && !jsTruthy otl) then
            .ok (otl, data, jsDeleteF options "templateLang")
          else .error "invalid arguments"
  else
    .ok (.bool false, defaultData, defaultOptions)

/-- The full render template function produced by
`renderTemplateFunctionFactory` (lines 684-796 of the source) on a string
input: arity guard, argument disambiguation, the optional layering of the
ambient context (`this.ctx`) under the data, and the core render.  The
`defaultData` argument models the per-call copy of `defaultTemplateData`. -/
def renderTemplateFunc (render : RenderFn) (engines : Engines)
    (accessGlobalData : Bool) (ctx : JSObj) (defaultData : JSObj)
    (defaultOptions : JSObj) (input : String) (args : List JSVal) :
    Except String ParsedTemplate :=
  if args.length > 3 then .error "invalid input argument"
  else
    match parseRenderArgs defaultData defaultOptions args with
    | .error e => .error e
    | .ok (templateLang, data, options) =>
      let data := if accessGlobalData then jsAssignF (jsAssignF [] ctx) data else data
      renderTemplateCore render engines options data templateLang input

/-- A heap of JavaScript objects, for stating the aliasing behaviour of the
context merge: object references are heap indices. -/
abbrev JSHeap := List JSObj

/-- Dereference a heap index. -/
def heapGet (h : JSHeap) (r : Nat) : JSObj := (h.get? r).getD []

/-- The template engine call in the heap model: it receives the text, the
reference to the effective data object, and the heap through which that
reference is read. -/
abbrev RenderRefFn := String → Nat → JSHeap → Except String String

/-- Lines 778-788 of `EleventyUtil.mjs` in the heap model: render the raw
matter passing the data object by reference, parse the rendered matter, run
`Object.assign(data, parsed.data)` as an in-place update of the referenced
object (no new object is allocated and the reference is unchanged), then
render the body passing the same reference. -/
def renderPhasesHeap (render : RenderRefFn)
    (matterParse : String → Except String JSVal) (h : JSHeap) (dataRef : Nat)
    (matter content : String) :
    Except String (JSHeap × String × JSVal × String) :=
  match render matter dataRef h with
  | .error e => .error e
  | .ok mr =>
    match matterParse mr with
    | .error e => .error e
    | .ok pd =>
      let h2 := h.set dataRef (jsAssignF (heapGet h dataRef) (jsAssignSource pd))
      match render content dataRef h2 with
      | .error e => .error e
      | .ok r => .ok (h2, mr, pd, r)

/-- `Array.prototype.indexOf`: index of the first occurrence. -/
def jsIndexOf (x : String) : List String → Option Nat
  | [] => none
  | y :: tl => if y = x then some 0 else (jsIndexOf x tl).map (· + 1)

/-- `sizes.slice().sort((a, b) => a - b)` from `toIco.js`: ascending stable
sort of the icon sizes (insertion sort is stable and agrees with the
JavaScript sort on numeric keys). -/
def sortSizesAsc (l : List Nat) : List Nat :=
  List.insertionSort (fun a b => a ≤ b) l

/-- `toIco` from `src/script/build/helper/toIco.js` (lines 13-45) applied to
an explicit list of numeric sizes (the only shape the converter passes):
one resized raster per size, produced in memory only, packaged by the
external icon encoder into a single buffer.  The resize engine and the icon
encoder are external libraries and stay abstract. -/
def toIco {α β : Type} (resize : Nat → α) (encodeIco : List α → β)
    (sizes : List Nat) : β :=
  encodeIco ((sortSizesAsc sizes).map resize)

/-- The observable per-descriptor outcome of the image converter relevant to
the icon path: the files the icon path writes (filename and buffer), and
the format list handed to the general raster pipeline (`none` when the
pipeline is not invoked). -/
structure TransformImageResult (β : Type) where
  icoFileWrites : List (String × β)
  pipelineFormats : Option (List String)

/-- One descriptor of `transformImage` from `EleventyUtil.mjs`
(lines 1102-1158): the icon branch (lines 1113-1122) removes the first
occurrence of the `ico` entry by `indexOf` and `splice`, builds the icon
container through `toIco`, and writes it as a single `.ico` file; the
general raster pipeline (line 1124 on) is invoked exactly when format
entries remain.  Directory creation, logging and the returned metadata
record are omitted; `basename` models the resolved output basename. -/
def transformImageOne {α β : Type} (resize : Nat → α) (encodeIco : List α → β)
    (formats : List String) (widths : List Nat) (basename : String) :
    TransformImageResult β :=
  match jsIndexOf "ico" formats with
  | some i =>
    let formats2 := formats.eraseIdx i
    { icoFileWrites := [(basename ++ ".ico", toIco resize encodeIco widths)],
      pipelineFormats := if formats2.length > 0 then some formats2 else none }
  | none =>
    { icoFileWrites := [],
      pipelineFormats := if formats.length > 0 then some formats else none }

/-- Composition lemma for the core render: when the front-matter split, the
two engine calls and the parse all take given values, the core returns the
assembled record. -/
theorem renderTemplateCore_eq (render : RenderFn) (engines : Engines)
    (options : JSObj) (data : JSObj) (tl : JSVal) (input : String)
    (lang matter content : String)
    (hparts : fmParts options input = (lang, matter, content))
    (mr : String) (hmr : render matter data tl = Except.ok mr)
    (p : String → Except String JSVal)
    (heng : lookupEngine engines lang = some (.objE p))
    (pd : JSVal) (hpd : p mr = Except.ok pd)
    (r : String)
    (hbody : render content (jsAssignF data (jsAssignSource pd)) tl = Except.ok r) :
    renderTemplateCore render engines options data tl input =
      Except.ok ⟨input, lang, matter, content, mr, pd, r⟩ := by
  unfold renderTemplateCore renderFrontPhase
  rw [hparts]
  simp only [hmr, heng, hpd, hbody]

/-- C1: on the input consisting of a default-delimited front-matter block
`foo: 1` followed by the body `Hello`, with no extra arguments (default
options) and a template engine performing identity substitution, the render
template function returns matter `foo: 1`, content `Hello`, the parsed
mapping of `foo` to `1` as data, and `Hello` as the rendered output. -/
theorem renderTemplate_basic_example (render : RenderFn)
    (yamlParse : String → Except String JSVal)
    (hr : ∀ s d tl, render s d tl = Except.ok s)
    (hp : yamlParse "foo: 1" = Except.ok (JSVal.obj [("foo", JSVal.num 1)])) :
    renderTemplateFunc render [("yaml", ParseEngine.objE yamlParse)] true [] [] []
      "---\nfoo: 1\n---\nHello" [] =
    Except.ok ⟨"---\nfoo: 1\n---\nHello", "yaml", "foo: 1", "Hello", "foo: 1",
      JSVal.obj [("foo", JSVal.num 1)], "Hello"⟩ := by
  have hw : renderTemplateFunc render [("yaml", ParseEngine.objE yamlParse)] true
      [] [] [] "---\nfoo: 1\n---\nHello" [] =
      renderTemplateCore render [("yaml", ParseEngine.objE yamlParse)] [] []
        (.bool false) "---\nfoo: 1\n---\nHello" := rfl
  rw [hw]
  have hparts : fmParts [] "---\nfoo: 1\n---\nHello" =
      ("yaml", "foo: 1", "Hello") := rfl
  exact renderTemplateCore_eq render [("yaml", ParseEngine.objE yamlParse)] []
    [] (.bool false) "---\nfoo: 1\n---\nHello" "yaml" "foo: 1" "Hello" hparts
    "foo: 1" (hr _ _ _) yamlParse rfl _ hp "Hello" (hr _ _ _)

/-- The identity template engine: renders every text to itself. -/
def idRenderFn : RenderFn := fun s _ _ => Except.ok s

/-- A parse stub returning the mapping of `foo` to `1` on every text. -/
def constFooParse : String → Except String JSVal :=
  fun _ => Except.ok (.obj [("foo", .num 1)])

/-- A parse stub returning the empty mapping on every text. -/
def constEmptyParse : String → Except String JSVal :=
  fun _ => Except.ok (.obj [])

/-- Witness for C1 at the identity engine and a concrete parse stub. -/
theorem renderTemplate_basic_example_witness :
    renderTemplateFunc idRenderFn [("yaml", ParseEngine.objE constFooParse)] true
      [] [] [] "---\nfoo: 1\n---\nHello" [] =
    Except.ok ⟨"---\nfoo: 1\n---\nHello", "yaml", "foo: 1", "Hello", "foo: 1",
      JSVal.obj [("foo", JSVal.num 1)], "Hello"⟩ :=
  renderTemplate_basic_example idRenderFn constFooParse (fun _ _ _ => rfl) rfl

/-- C4: when the delimiter pair is not found at the start of the input (the
front-matter block of the regex does not match under the default
delimiters), the core render treats the whole input as body: the content
field equals the input and the parsed data is the empty mapping (the
default-language engine parsing the rendered empty matter). -/
theorem renderTemplate_no_front_matter (render : RenderFn) (engines : Engines)
    (p : String → Except String JSVal) (data : JSObj) (tl : JSVal)
    (input : String)
    (hnofm : frontMatterRegexMatch defaultFrontMatterDelimiter.data
        defaultFrontMatterDelimiter.data input.data = none)
    (heng : lookupEngine engines defaultFrontMatterLanguage = some (.objE p))
    (mr : String) (hmr : render "" data tl = Except.ok mr)
    (hpd : p mr = Except.ok (JSVal.obj []))
    (r : String) (hbody : render input data tl = Except.ok r) :
    renderTemplateCore render engines [] data tl input =
      Except.ok ⟨input, defaultFrontMatterLanguage, "", input, mr,
        JSVal.obj [], r⟩ := by
  have hparts : fmParts [] input = (defaultFrontMatterLanguage, "", input) := by
    have hd : fmDelims [] = (defaultFrontMatterDelimiter,
        defaultFrontMatterDelimiter) := rfl
    unfold fmParts
    simp only [hd, hnofm]
  exact renderTemplateCore_eq render engines [] data tl input _ "" input hparts
    mr hmr p heng _ hpd r hbody

/-- Witness for C4 on the delimiter-free input `Hello`. -/
theorem renderTemplate_no_front_matter_witness :
    renderTemplateCore idRenderFn [("yaml", ParseEngine.objE constEmptyParse)]
      [] [] (.bool false) "Hello" =
    Except.ok ⟨"Hello", defaultFrontMatterLanguage, "", "Hello", "",
      JSVal.obj [], "Hello"⟩ :=
  renderTemplate_no_front_matter idRenderFn
    [("yaml", ParseEngine.objE constEmptyParse)] constEmptyParse []
    (.bool false) "Hello" rfl rfl "" rfl rfl "Hello" rfl

/-- C6: when the front-matter block declares a notation name and no engine
is registered under it, the core render fails with an error carrying the
front-matter parse context (the wrapped TypeError of the undefined engine
lookup, or the wrapped engine failure), never succeeding with empty data. -/
theorem renderTemplate_missing_engine_fails (render : RenderFn)
    (engines : Engines) (options : JSObj) (data : JSObj) (tl : JSVal)
    (input : String) (tagChars : List Char) (m : Option (List Char))
    (rest : List Char)
    (hmatch : frontMatterRegexMatch (fmDelims options).1.data
        (fmDelims options).2.data input.data = some (some tagChars, m, rest))
    (hne : ¬ tagChars = [])
    (hmiss : lookupEngine engines (String.mk tagChars) = none) :
    ∃ e, renderTemplateCore render engines options data tl input =
      Except.error ("cannot parse front matter of template: " ++ e) := by
  have hs : ¬ String.mk tagChars = "" := by
    intro h
    apply hne
    have h2 := congrArg String.data h
    simpa using h2
  have hlang : (fmParts options input).1 = String.mk tagChars := by
    unfold fmParts
    simp only [hmatch, Option.getD_some]
    simp [hs]
  unfold renderTemplateCore renderFrontPhase
  cases hrend : render (fmParts options input).2.1 data tl with
  | error e => exact ⟨e, by simp only [hrend]⟩
  | ok mr =>
    refine ⟨missingEngineMsg, ?_⟩
    simp only [hrend, hlang, hmiss]

/-- Witness for C6: a block declaring the unregistered name `custom`. -/
theorem renderTemplate_missing_engine_fails_witness :
    ∃ e, renderTemplateCore idRenderFn
      [("yaml", ParseEngine.objE constEmptyParse)] [] [] (.bool false)
      "---custom\nfoo\n---\nX" =
      Except.error ("cannot parse front matter of template: " ++ e) :=
  renderTemplate_missing_engine_fails idRenderFn
    [("yaml", ParseEngine.objE constEmptyParse)] [] [] (.bool false)
    "---custom\nfoo\n---\nX" "custom".data (some "foo".data) "X".data rfl
    (by decide) rfl

/-- C7: the core render fails exactly when one of its two phases fails, and
the error message is the phase error prefixed with the front-matter parse
context for a failure while rendering or parsing the front matter, and with
the template render context for a failure while rendering the body; no
phase error is swallowed. -/
theorem renderTemplate_error_wrapping (render : RenderFn) (engines : Engines)
    (options : JSObj) (data : JSObj) (tl : JSVal) (input : String)
    (msg : String) :
    renderTemplateCore render engines options data tl input =
        Except.error msg ↔
      (∃ e, renderFrontPhase render engines options data tl input =
          Except.error e ∧
        msg = "cannot parse front matter of template: " ++ e) ∨
      (∃ e mr pd, renderFrontPhase render engines options data tl input =
          Except.ok (mr, pd) ∧
        render (fmParts options input).2.2
            (jsAssignF data (jsAssignSource pd)) tl = Except.error e ∧
        msg = "cannot render template: " ++ e) := by
  unfold renderTemplateCore
  cases hfp : renderFrontPhase render engines options data tl input with
  | error e =>
    simp [hfp]
    exact eq_comm
  | ok v =>
    obtain ⟨mr, pd⟩ := v
    cases hb : render (fmParts options input).2.2
        (jsAssignF data (jsAssignSource pd)) tl with
    | error e =>
      simp only [hfp, hb]
      constructor
      · intro h
        injection h with h1
        right
        exact ⟨e, mr, pd, rfl, hb, h1.symm⟩
      · rintro (⟨e1, he1, hmsg⟩ | ⟨e1, mr1, pd1, hok, hb1, hmsg⟩)
        · exact absurd he1 (by simp)
        · injection hok with h2
          rw [show pd1 = pd from congrArg Prod.snd h2.symm] at hb1
          rw [hb] at hb1
          injection hb1 with h3
          rw [hmsg, h3]
    | ok r =>
      simp only [hfp, hb]
      constructor
      · intro h
        exact absurd h (by simp)
      · rintro (⟨e1, he1, hmsg⟩ | ⟨e1, mr1, pd1, hok, hb1, hmsg⟩)
        · exact absurd he1 (by simp)
        · injection hok with h2
          rw [show pd1 = pd from congrArg Prod.snd h2.symm] at hb1
          rw [hb] at hb1
          exact absurd hb1 (by simp)

/-- C2 counterexample: the empty string is a falsy value, so the delimiter
normalizer returns the omitted (default) result for it instead of resolving
it into the pair of two empty delimiters that the claim prescribes for a
single string. -/
theorem frontMatterOptionDelimiters_empty_string_cex :
    frontMatterOptionDelimiters (.str "") = Except.ok (.obj []) ∧
    ¬ frontMatterOptionDelimiters (.str "") =
      Except.ok (.obj [("delimiters", .arr [.str "", .str ""])]) := by
  have h0 : frontMatterOptionDelimiters (.str "") = Except.ok (.obj []) := rfl
  refine ⟨h0, ?_⟩
  rw [h0]
  simp

/-- C2 (amended): the delimiter normalizer resolves a single non-empty
string into both delimiters, duplicates a one-element list, uses a
two-element list directly, raises an error on longer lists, and omits the
delimiters key whenever the resolved pair equals the default pair; the
empty string, being falsy, also yields the omitted result. -/
theorem frontMatterOptionDelimiters_resolution :
    (∀ s : String, ¬ s = "" → ¬ s = defaultFrontMatterDelimiter →
      frontMatterOptionDelimiters (.str s) =
        Except.ok (.obj [("delimiters", .arr [.str s, .str s])])) ∧
    frontMatterOptionDelimiters (.str defaultFrontMatterDelimiter) =
      Except.ok (.obj []) ∧
    (∀ v : JSVal, frontMatterOptionDelimiters (.arr [v]) =
      Except.ok (if isDefaultDelim v then .obj []
        else .obj [("delimiters", .arr [v, v])])) ∧
    (∀ v w : JSVal, frontMatterOptionDelimiters (.arr [v, w]) =
      Except.ok (if isDefaultDelim v && isDefaultDelim w then .obj []
        else .obj [("delimiters", .arr [v, w])])) ∧
    (∀ xs : List JSVal, 3 ≤ xs.length →
      frontMatterOptionDelimiters (.arr xs) = Except.error "invalid options") := by
  refine ⟨?_, rfl, ?_, ?_, ?_⟩
  · intro s h1 h2
    have ht : jsTruthy (.str s) = true := by simp [jsTruthy, h1]
    have hd : isDefaultDelim (.str s) = false := by
      simp [isDefaultDelim, h2]
    simp [frontMatterOptionDelimiters, jsTypeof, jsIsArray, ht, hd]
  · intro v
    cases hv : isDefaultDelim v with
    | true => simp [frontMatterOptionDelimiters, jsTruthy, jsIsArray, hv]
    | false => simp [frontMatterOptionDelimiters, jsTruthy, jsIsArray, hv]
  · intro v w
    cases hv : isDefaultDelim v with
    | true =>
      cases hw : isDefaultDelim w with
      | true => simp [frontMatterOptionDelimiters, jsTruthy, jsIsArray, hv, hw]
      | false => simp [frontMatterOptionDelimiters, jsTruthy, jsIsArray, hv, hw]
    | false => simp [frontMatterOptionDelimiters, jsTruthy, jsIsArray, hv]
  · intro xs hlen
    match xs, hlen with
    | a :: b :: c :: tl, _ =>
      simp [frontMatterOptionDelimiters, jsTruthy, jsIsArray]

/-- Witness for the amended C2 on the single delimiter string `+`. -/
theorem frontMatterOptionDelimiters_resolution_witness :
    frontMatterOptionDelimiters (.str "+") =
      Except.ok (.obj [("delimiters", .arr [.str "+", .str "+"])]) :=
  frontMatterOptionDelimiters_resolution.1 "+" (by decide) (by decide)

/-- The alias strings recognized by the language switch of
`frontMatterOptionLanguage` (including the default language and its alias). -/
def knownLanguageAliases : List String :=
  ["node", "javascript", "js", "legacy", "jslegacy", "coffee", "coffeescript",
   "cs", "cson", "coffee-json", "coffeejson", "coffee-obj", "coffeeobj",
   "csobj", "yaml", "yml"]

/-- C5 counterexample: the uppercase name `TOML` is unrecognized and passes
through lowercased, not verbatim: the result names the language `toml`, not
`TOML`. -/
theorem frontMatterOptionLanguage_not_verbatim_cex :
    frontMatterOptionLanguage (.str "TOML") =
      Except.ok (.obj [("language", .str "toml")]) ∧
    ¬ frontMatterOptionLanguage (.str "TOML") =
      Except.ok (.obj [("language", .str "TOML")]) := by
  have h0 : frontMatterOptionLanguage (.str "TOML") =
      Except.ok (.obj [("language", .str "toml")]) := rfl
  refine ⟨h0, ?_⟩
  rw [h0]
  simp

/-- C5 (amended): the language normalizer lowercases and trims a
string-valued name and matches it against the fixed alias table, so the
match is case-insensitive; the default language and its alias resolve to
the empty record, and every unrecognized non-empty name passes through in
its lowercased and trimmed form as a custom language name. -/
theorem frontMatterOptionLanguage_alias_resolution :
    frontMatterOptionLanguage (.str "js") =
      Except.ok (.obj [("language", .str "javascript")]) ∧
    frontMatterOptionLanguage (.str "JavaScript") =
      Except.ok (.obj [("language", .str "javascript")]) ∧
    frontMatterOptionLanguage (.str "Node") =
      Except.ok (.obj [("language", .str "javascript")]) ∧
    frontMatterOptionLanguage (.str "yaml") = Except.ok (.obj []) ∧
    frontMatterOptionLanguage (.str "YML") = Except.ok (.obj []) ∧
    (∀ s : String, ¬ s = "" →
      ¬ jsTrim (jsToLower s) ∈ knownLanguageAliases →
      frontMatterOptionLanguage (.str s) =
        Except.ok (.obj [("language", .str (jsTrim (jsToLower s)))])) := by
  refine ⟨rfl, rfl, rfl, rfl, rfl, ?_⟩
  intro s h1 h2
  have hb : ∀ a, a ∈ knownLanguageAliases →
      (decide (jsTrim (jsToLower s) = a)) = false := by
    intro a ha
    simp only [decide_eq_false_iff_not]
    intro h
    exact h2 (h ▸ ha)
  have ht : jsTruthy (.str s) = true := by simp [jsTruthy, h1]
  simp [frontMatterOptionLanguage, jsTypeof, jsOr, ht,
    defaultFrontMatterLanguage,
    hb "node" (by decide), hb "javascript" (by decide), hb "js" (by decide),
    hb "legacy" (by decide), hb "jslegacy" (by decide),
    hb "coffee" (by decide), hb "coffeescript" (by decide),
    hb "cs" (by decide), hb "cson" (by decide),
    hb "coffee-json" (by decide), hb "coffeejson" (by decide),
    hb "coffee-obj" (by decide), hb "coffeeobj" (by decide),
    hb "csobj" (by decide), hb "yaml" (by decide), hb "yml" (by decide)]

/-- Witness for the amended C5 on the unrecognized name `TOML `. -/
theorem frontMatterOptionLanguage_alias_resolution_witness :
    frontMatterOptionLanguage (.str "TOML ") =
      Except.ok (.obj [("language", .str (jsTrim (jsToLower "TOML ")))]) :=
  frontMatterOptionLanguage_alias_resolution.2.2.2.2.2 "TOML " (by decide)
    (by decide)
/-- Reading the key just written by a property write yields the new value. -/
theorem jsGetF?_jsSetF_self (o : JSObj) (k : String) (v : JSVal) :
    jsGetF? (jsSetF o k v) k = some v := by
  induction o with
  | nil => simp [jsSetF, jsGetF?]
  | cons p rest ih =>
    obtain ⟨k1, v1⟩ := p
    by_cases hk : k1 = k
    · subst hk
      simp [jsSetF, jsGetF?]
    · simp [jsSetF, jsGetF?, hk, ih]

/-- Reading another key after a property write is unchanged. -/
theorem jsGetF?_jsSetF_of_ne (o : JSObj) (k k1 : String) (v : JSVal)
    (h : ¬ k1 = k) : jsGetF? (jsSetF o k v) k1 = jsGetF? o k1 := by
  have h2 : ¬ k = k1 := fun hh => h hh.symm
  induction o with
  | nil => simp [jsSetF, jsGetF?, h2]
  | cons p rest ih =>
    obtain ⟨k2, v2⟩ := p
    by_cases hk : k2 = k
    · subst hk
      simp [jsSetF, jsGetF?, h2]
    · simp only [jsSetF, hk, if_false]
      by_cases hq : k2 = k1
      · simp [jsGetF?, hq]
      · simp [jsGetF?, hq, ih]

/-- If a value is not the default delimiter by the strict test, it is not
the default delimiter string. -/
theorem ne_defaultDelim_of_test_false (v : JSVal)
    (h : isDefaultDelim v = false) :
    ¬ v = JSVal.str defaultFrontMatterDelimiter := by
  intro he
  subst he
  simp [isDefaultDelim] at h

/-- C10: for every accepted excerpt configuration, the normalized record
never carries the excerpt key with value `false`: when present its value is
`true` or the caller-supplied function (the options value itself or its
excerpt member); the excerpt separator key appears only with a value other
than the default delimiter, and the excerpt alias key only with a value
other than `page.excerpt`. -/
theorem frontMatterOptionExcerpt_invariant (options : JSVal) (r : JSObj)
    (h : frontMatterOptionExcerpt options = Except.ok (.obj r)) :
    (¬ jsGetF? r "excerpt" = some (JSVal.bool false)) ∧
    (∀ v, jsGetF? r "excerpt" = some v →
      v = JSVal.bool true ∨
        (jsTypeof v = "function" ∧
          (v = options ∨ v = jsGet options "excerpt"))) ∧
    (∀ v, jsGetF? r "excerpt_separator" = some v →
      ¬ v = JSVal.str defaultFrontMatterDelimiter) ∧
    (∀ v, jsGetF? r "excerpt_alias" = some v →
      ¬ v = JSVal.str "page.excerpt") := by
  unfold frontMatterOptionExcerpt at h
  split at h
  case isFalse =>
    injection h with h1
    injection h1 with h2
    subst h2
    simp [jsGetF?]
  case isTrue htr =>
    split at h
    · exact absurd h (by simp)
    · rename_i excerpt sep0 alias0 heq
      have hsrc : excerpt = options ∨ excerpt = jsGet options "excerpt" ∨
          jsTypeof excerpt = "boolean" ∨ excerpt = JSVal.undefined := by
        split at heq
        · injection heq with heq1
          injection heq1 with he1 he2
          split at he1
          · right; left
            rw [← he1]
          · rw [← he1]
            unfold jsOr
            split
            · right; left; rfl
            · right; right; right; rfl
        · split at heq
          · injection heq with heq1
            injection heq1 with he1 he2
            left
            rw [← he1]
          · split at heq
            · injection heq with heq1
              injection heq1 with he1 he2
              right; right; left
              rw [← he1]
              rfl
            · split at heq
              · injection heq with heq1
                injection heq1 with he1 he2
                left
                rw [← he1]
              · exact absurd heq (by simp)
      -- a step lemma transporting the invariant over the alias handling
      have hstep : ∀ (res : JSObj) (al : JSVal),
          ((¬ jsGetF? res "excerpt" = some (JSVal.bool false)) ∧
            (∀ v, jsGetF? res "excerpt" = some v →
              v = JSVal.bool true ∨
                (jsTypeof v = "function" ∧
                  (v = options ∨ v = jsGet options "excerpt"))) ∧
            (∀ v, jsGetF? res "excerpt_separator" = some v →
              ¬ v = JSVal.str defaultFrontMatterDelimiter) ∧
            jsGetF? res "excerpt_alias" = none) →
          (r = res ∨ (r = jsSetF res "excerpt_alias" al ∧
            ¬ al = JSVal.str "page.excerpt")) →
          (¬ jsGetF? r "excerpt" = some (JSVal.bool false)) ∧
          (∀ v, jsGetF? r "excerpt" = some v →
            v = JSVal.bool true ∨
              (jsTypeof v = "function" ∧
                (v = options ∨ v = jsGet options "excerpt"))) ∧
          (∀ v, jsGetF? r "excerpt_separator" = some v →
            ¬ v = JSVal.str defaultFrontMatterDelimiter) ∧
          (∀ v, jsGetF? r "excerpt_alias" = some v →
            ¬ v = JSVal.str "page.excerpt") := by
        rintro res al ⟨p1, p2, p3, p4⟩ (hre | ⟨hre, hal⟩)
        · subst hre
          refine ⟨p1, p2, p3, ?_⟩
          intro v hv
          rw [p4] at hv
          exact absurd hv (by simp)
        · subst hre
          refine ⟨?_, ?_, ?_, ?_⟩
          · rw [jsGetF?_jsSetF_of_ne res _ _ _ (by decide)]
            exact p1
          · intro v hv
            rw [jsGetF?_jsSetF_of_ne res _ _ _ (by decide)] at hv
            exact p2 v hv
          · intro v hv
            rw [jsGetF?_jsSetF_of_ne res _ _ _ (by decide)] at hv
            exact p3 v hv
          · intro v hv
            rw [jsGetF?_jsSetF_self res _ _] at hv
            injection hv with hv1
            rw [← hv1]
            exact hal
      -- phase two: the record before the alias step
      split at h
      · exact absurd h (by simp)
      · rename_i result heq2
        have hres : (¬ jsGetF? result "excerpt" = some (JSVal.bool false)) ∧
            (∀ v, jsGetF? result "excerpt" = some v →
              v = JSVal.bool true ∨
                (jsTypeof v = "function" ∧
                  (v = options ∨ v = jsGet options "excerpt"))) ∧
            (∀ v, jsGetF? result "excerpt_separator" = some v →
              ¬ v = JSVal.str defaultFrontMatterDelimiter) ∧
            jsGetF? result "excerpt_alias" = none := by
          have hexok : ∀ X : JSVal,
              X = JSVal.bool true ∨
                (jsTypeof X = "function" ∧
                  (X = options ∨ X = jsGet options "excerpt")) →
              ¬ X = JSVal.bool false := by
            rintro X (hX | ⟨hX, _⟩) hc
            · subst hc
              exact absurd hX (by simp)
            · subst hc
              simp [jsTypeof] at hX
          have hone : ∀ X : JSVal,
              X = JSVal.bool true ∨
                (jsTypeof X = "function" ∧
                  (X = options ∨ X = jsGet options "excerpt")) →
              (¬ jsGetF? [("excerpt", X)] "excerpt" = some (JSVal.bool false)) ∧
              (∀ v, jsGetF? [("excerpt", X)] "excerpt" = some v →
                v = JSVal.bool true ∨
                  (jsTypeof v = "function" ∧
                    (v = options ∨ v = jsGet options "excerpt"))) ∧
              (∀ v, jsGetF? [("excerpt", X)] "excerpt_separator" = some v →
                ¬ v = JSVal.str defaultFrontMatterDelimiter) ∧
              jsGetF? [("excerpt", X)] "excerpt_alias" = none := by
            intro X hX
            have hget : jsGetF? [("excerpt", X)] "excerpt" = some X := rfl
            refine ⟨?_, ?_, ?_, ?_⟩
            · rw [hget]
              intro hc
              injection hc with hc1
              exact hexok X hX hc1
            · intro v hv
              rw [hget] at hv
              injection hv with hv1
              rw [← hv1]
              exact hX
            · intro v hv
              simp [jsGetF?] at hv
            · simp [jsGetF?]
          have htwo : ∀ (X S : JSVal),
              X = JSVal.bool true ∨
                (jsTypeof X = "function" ∧
                  (X = options ∨ X = jsGet options "excerpt")) →
              isDefaultDelim S = false →
              (¬ jsGetF? [("excerpt", X), ("excerpt_separator", S)] "excerpt" =
                some (JSVal.bool false)) ∧
              (∀ v, jsGetF? [("excerpt", X), ("excerpt_separator", S)]
                  "excerpt" = some v →
                v = JSVal.bool true ∨
                  (jsTypeof v = "function" ∧
                    (v = options ∨ v = jsGet options "excerpt"))) ∧
              (∀ v, jsGetF? [("excerpt", X), ("excerpt_separator", S)]
                  "excerpt_separator" = some v →
                ¬ v = JSVal.str defaultFrontMatterDelimiter) ∧
              jsGetF? [("excerpt", X), ("excerpt_separator", S)]
                "excerpt_alias" = none := by
            intro X S hX hS
            have hget : jsGetF? [("excerpt", X), ("excerpt_separator", S)]
                "excerpt" = some X := rfl
            have hgs : jsGetF? [("excerpt", X), ("excerpt_separator", S)]
                "excerpt_separator" = some S := rfl
            refine ⟨?_, ?_, ?_, ?_⟩
            · rw [hget]
              intro hc
              injection hc with hc1
              exact hexok X hX hc1
            · intro v hv
              rw [hget] at hv
              injection hv with hv1
              rw [← hv1]
              exact hX
            · intro v hv
              rw [hgs] at hv
              injection hv with hv1
              rw [← hv1]
              exact ne_defaultDelim_of_test_false S hS
            · simp [jsGetF?]
          split at heq2
          · -- truthy excerpt
            rename_i htre
            split at heq2
            · exact absurd heq2 (by simp)
            · rename_i result0 sep heq3
              have hsp := heq2
              split at heq3
              · -- excerpt is a string: the record gets excerpt true
                rename_i hstr
                injection heq3 with heq4
                rw [Prod.mk.injEq] at heq4
                obtain ⟨h5, h6⟩ := heq4
                subst h5
                split at hsp
                · rename_i hspc
                  injection hsp with h7
                  rw [← h7]
                  have hs2 : isDefaultDelim sep = false := by
                    rcases Bool.and_eq_true_iff.mp hspc with ⟨_, hs3⟩
                    simpa using hs3
                  exact htwo (JSVal.bool true) sep (Or.inl rfl) hs2
                · injection hsp with h7
                  rw [← h7]
                  exact hone (JSVal.bool true) (Or.inl rfl)
              · -- excerpt is not a string: split the invalid-type guard
                split at heq3
                · exact absurd heq3 (by simp)
                · rename_i hbf
                  injection heq3 with heq4
                  rw [Prod.mk.injEq] at heq4
                  obtain ⟨h5, h6⟩ := heq4
                  subst h5
                  rename_i htre2
                  have hx : excerpt = JSVal.bool true ∨
                      jsTypeof excerpt = "function" := by
                    by_cases hfn : jsTypeof excerpt = "function"
                    · exact Or.inr hfn
                    · have hbool : jsTypeof excerpt = "boolean" := by
                        by_contra hb
                        exact hbf (by simp [hb, hfn])
                      left
                      cases excerpt <;> simp only [jsTypeof] at hbool <;>
                        try exact absurd hbool (by decide)
                      rename_i b
                      have hb2 : b = true := by simpa [jsTruthy] using htre
                      rw [hb2]
                  have hx2 : excerpt = JSVal.bool true ∨
                      (jsTypeof excerpt = "function" ∧
                        (excerpt = options ∨ excerpt = jsGet options "excerpt")) := by
                    rcases hx with hx | hx
                    · exact Or.inl hx
                    · refine Or.inr ⟨hx, ?_⟩
                      rcases hsrc with hs | hs | hs | hs
                      · exact Or.inl hs
                      · exact Or.inr hs
                      · rw [hs] at hx
                        exact absurd hx (by decide)
                      · rw [hs] at hx
                        exact absurd hx (by decide)
                  split at hsp
                  · rename_i hspc
                    injection hsp with h7
                    rw [← h7]
                    have hs2 : isDefaultDelim sep = false := by
                      rcases Bool.and_eq_true_iff.mp hspc with ⟨_, hs3⟩
                      simpa using hs3
                    exact htwo excerpt sep hx2 hs2
                  · injection hsp with h7
                    rw [← h7]
                    exact hone excerpt hx2
          · -- falsy excerpt
            split at heq2
            · rename_i hc2
              split at heq2
              · rename_i hd2
                injection heq2 with h7
                rw [← h7]
                exact htwo (JSVal.bool true) sep0 (Or.inl rfl) (by simpa using hd2)
              · injection heq2 with h7
                rw [← h7]
                exact hone (JSVal.bool true) (Or.inl rfl)
            · injection heq2 with h7
              rw [← h7]
              simp [jsGetF?]
        -- the alias chain of the final step
        split at h
        · split at h
          · split at h
            · exact absurd h (by simp)
            · split at h
              · rename_i hset
                injection h with h1
                injection h1 with h2
                refine hstep result alias0 hres (Or.inr ⟨h2.symm, ?_⟩)
                intro hcontra
                subst hcontra
                simp at hset
              · injection h with h1
                injection h1 with h2
                exact hstep result alias0 hres (Or.inl h2.symm)
          · injection h with h1
            injection h1 with h2
            exact hstep result alias0 hres (Or.inl h2.symm)
        · injection h with h1
          injection h1 with h2
          exact hstep result alias0 hres (Or.inl h2.symm)

/-- A sample excerpt configuration: a string excerpt with a custom alias. -/
def excerptOptsSample : JSVal :=
  .obj [("excerpt", .str "xx"), ("excerpt_alias", .str "al")]

/-- The normalized record produced for `excerptOptsSample`. -/
def excerptResultSample : JSObj :=
  [("excerpt", .bool true), ("excerpt_separator", .str "xx"),
   ("excerpt_alias", .str "al")]

/-- Witness for C10 at a concrete excerpt configuration. -/
theorem frontMatterOptionExcerpt_invariant_witness :
    (¬ jsGetF? excerptResultSample "excerpt" = some (JSVal.bool false)) ∧
    (∀ v, jsGetF? excerptResultSample "excerpt" = some v →
      v = JSVal.bool true ∨
        (jsTypeof v = "function" ∧
          (v = excerptOptsSample ∨ v = jsGet excerptOptsSample "excerpt"))) ∧
    (∀ v, jsGetF? excerptResultSample "excerpt_separator" = some v →
      ¬ v = JSVal.str defaultFrontMatterDelimiter) ∧
    (∀ v, jsGetF? excerptResultSample "excerpt_alias" = some v →
      ¬ v = JSVal.str "page.excerpt") :=
  frontMatterOptionExcerpt_invariant excerptOptsSample excerptResultSample rfl

/-- Dereferencing the updated slot of a heap yields the new object. -/
theorem heapGet_set_self (h : JSHeap) (i : Nat) (x : JSObj)
    (hi : i < h.length) : heapGet (h.set i x) i = x := by
  induction h generalizing i with
  | nil => simp at hi
  | cons a tl ih =>
    cases i with
    | zero => simp [heapGet]
    | succ n =>
      have hn : n < tl.length := by simpa using hi
      simpa [heapGet, List.set] using ih n hn

/-- Dereferencing any other slot of a heap is unchanged by an update. -/
theorem heapGet_set_ne (h : JSHeap) (i j : Nat) (x : JSObj)
    (hij : ¬ j = i) : heapGet (h.set i x) j = heapGet h j := by
  induction h generalizing i j with
  | nil => simp [heapGet]
  | cons a tl ih =>
    cases i with
    | zero =>
      cases j with
      | zero => exact absurd rfl hij
      | succ m => simp [heapGet, List.set]
    | succ n =>
      cases j with
      | zero => simp [heapGet, List.set]
      | succ m =>
        have hm : ¬ m = n := fun hh => hij (by rw [hh])
        simpa [heapGet, List.set] using ih n m hm

/-- A key absent from the source is unchanged by an object merge. -/
theorem jsGetF?_jsAssignF_not_mem (o src : JSObj) (k : String)
    (h : ¬ k ∈ src.map Prod.fst) :
    jsGetF? (jsAssignF o src) k = jsGetF? o k := by
  induction src generalizing o with
  | nil => rfl
  | cons p rest ih =>
    obtain ⟨k0, v0⟩ := p
    simp only [List.map_cons, List.mem_cons, not_or] at h
    obtain ⟨h1, h2⟩ := h
    have hstep : jsAssignF o ((k0, v0) :: rest) =
        jsAssignF (jsSetF o k0 v0) rest := rfl
    rw [hstep, ih (jsSetF o k0 v0) (by simpa using h2)]
    exact jsGetF?_jsSetF_of_ne o k0 k v0 h1

/-- A key present in a duplicate-free source is readable, with its source
value, after an object merge. -/
theorem jsGetF?_jsAssignF_of_nodup (o src : JSObj) (k : String) (v : JSVal)
    (hnd : (src.map Prod.fst).Nodup) (h : jsGetF? src k = some v) :
    jsGetF? (jsAssignF o src) k = some v := by
  induction src generalizing o with
  | nil => simp [jsGetF?] at h
  | cons p rest ih =>
    obtain ⟨k0, v0⟩ := p
    simp only [List.map_cons, List.nodup_cons] at hnd
    obtain ⟨hk0, hndr⟩ := hnd
    have hstep : jsAssignF o ((k0, v0) :: rest) =
        jsAssignF (jsSetF o k0 v0) rest := rfl
    rw [hstep]
    by_cases hk : k0 = k
    · subst hk
      simp only [jsGetF?, if_pos rfl] at h
      injection h with h1
      rw [jsGetF?_jsAssignF_not_mem (jsSetF o k0 v0) rest k0 hk0,
        jsGetF?_jsSetF_self o k0 v0, h1]
    · simp only [jsGetF?, hk, if_false] at h
      exact ih (jsSetF o k0 v0) hndr h

/-- C8: in the heap model of lines 778-788, after the front matter is
rendered and parsed, `Object.assign` merges the parsed bindings into the
very object the data reference points to: the body render is invoked with
the same reference over the heap updated in place at that one slot, every
parsed key is readable through the shared reference, no other heap object
changes, and no new object is allocated. -/
theorem renderPhases_context_merge_shared (render : RenderRefFn)
    (matterParse : String → Except String JSVal) (h : JSHeap) (dataRef : Nat)
    (matter content : String) (mr : String) (pd : JSVal)
    (href : dataRef < h.length)
    (hmr : render matter dataRef h = Except.ok mr)
    (hpd : matterParse mr = Except.ok pd)
    (hnd : ((jsAssignSource pd).map Prod.fst).Nodup) :
    (renderPhasesHeap render matterParse h dataRef matter content =
      match render content dataRef
          (h.set dataRef (jsAssignF (heapGet h dataRef) (jsAssignSource pd)))
        with
      | .error e => .error e
      | .ok r =>
        .ok (h.set dataRef (jsAssignF (heapGet h dataRef) (jsAssignSource pd)),
          mr, pd, r)) ∧
    (∀ k v, jsGetF? (jsAssignSource pd) k = some v →
      jsGetF? (heapGet
        (h.set dataRef (jsAssignF (heapGet h dataRef) (jsAssignSource pd)))
        dataRef) k = some v) ∧
    (∀ r2, ¬ r2 = dataRef →
      heapGet
        (h.set dataRef (jsAssignF (heapGet h dataRef) (jsAssignSource pd)))
        r2 = heapGet h r2) ∧
    (h.set dataRef (jsAssignF (heapGet h dataRef) (jsAssignSource pd))).length
      = h.length := by
  refine ⟨?_, ?_, ?_, ?_⟩
  · unfold renderPhasesHeap
    simp only [hmr, hpd]
  · intro k v hkv
    rw [heapGet_set_self h dataRef _ href]
    exact jsGetF?_jsAssignF_of_nodup (heapGet h dataRef) (jsAssignSource pd)
      k v hnd hkv
  · intro r2 hr2
    exact heapGet_set_ne h dataRef r2 _ hr2
  · simp

/-- The reference-passing identity engine of the heap model. -/
def refRenderSample : RenderRefFn := fun s _ _ => Except.ok s

/-- A heap-model parse stub returning the mapping of `foo` to `1`. -/
def fooParseSample : String → Except String JSVal :=
  fun _ => Except.ok (.obj [("foo", .num 1)])

/-- A one-object sample heap. -/
def heapSample : JSHeap := [[("a", JSVal.num 1)]]

/-- Witness for C8 on the sample heap: the merge happens in the one shared
slot and the body render result is packaged with the updated heap. -/
theorem renderPhases_context_merge_shared_witness :
    renderPhasesHeap refRenderSample fooParseSample heapSample 0 "m" "c" =
      Except.ok ([[("a", JSVal.num 1), ("foo", JSVal.num 1)]], "m",
        JSVal.obj [("foo", JSVal.num 1)], "c") :=
  (renderPhases_context_merge_shared refRenderSample fooParseSample heapSample
    0 "m" "c" "m" (JSVal.obj [("foo", JSVal.num 1)]) (by decide) rfl rfl
    (by decide)).1

/-- C9 counterexample: on a format list containing `ico` twice, the
converter passes a format list still containing `ico` to the general raster
pipeline: `indexOf` and `splice` remove only the first occurrence. -/
theorem transformImage_duplicate_ico_cex :
    ∃ l, (transformImageOne (fun n => n) (fun l2 => l2) ["ico", "ico"] [16]
      "icon").pipelineFormats = some l ∧ "ico" ∈ l :=
  ⟨["ico"], rfl, by decide⟩

/-- C9 (amended): for a transform descriptor whose format list includes the
icon-container format, the converter removes the first occurrence of `ico`
from the format list before invoking the general raster pipeline (which is
skipped when nothing remains), generates one raster per requested width
through the icon-focused path (the widths sorted ascending), packages them
into a single multi-resolution icon container written as exactly one `.ico`
file, and writes no other file from the icon path. -/
theorem transformImage_ico_path {α β : Type} (resize : Nat → α)
    (encodeIco : List α → β) (formats : List String) (widths : List Nat)
    (basename : String) (i : Nat)
    (hico : jsIndexOf "ico" formats = some i) :
    (transformImageOne resize encodeIco formats widths
        basename).pipelineFormats =
      (if (formats.eraseIdx i).length > 0 then some (formats.eraseIdx i)
       else none) ∧
    (transformImageOne resize encodeIco formats widths
        basename).icoFileWrites =
      [(basename ++ ".ico", encodeIco ((sortSizesAsc widths).map resize))] ∧
    ((sortSizesAsc widths).map resize).length = widths.length ∧
    (sortSizesAsc widths).Perm widths ∧
    (∀ p ∈ (transformImageOne resize encodeIco formats widths
        basename).icoFileWrites, ∃ b, p.1 = b ++ ".ico") := by
  have hperm : (sortSizesAsc widths).Perm widths :=
    List.perm_insertionSort (fun a b => a ≤ b) widths
  refine ⟨?_, ?_, ?_, hperm, ?_⟩
  · unfold transformImageOne
    rw [hico]
  · unfold transformImageOne toIco
    rw [hico]
  · rw [List.length_map]
    exact hperm.length_eq
  · intro p hp
    unfold transformImageOne at hp
    rw [hico] at hp
    simp only [List.mem_singleton] at hp
    rw [hp]
    exact ⟨basename, rfl⟩

/-- Witness for the amended C9 on formats `png` and `ico` with widths `16`
and `32`. -/
theorem transformImage_ico_path_witness :
    (transformImageOne (fun n => n) (fun l => l) ["png", "ico"] [16, 32]
      "icon").pipelineFormats = some ["png"] :=
  (transformImage_ico_path (fun n => n) (fun l => l) ["png", "ico"] [16, 32]
    "icon" 1 rfl).1
/-- Helper for stating the acceptance condition: the options object the
disambiguation derives from the object-typed arguments (the second
remaining object after nulls are dropped in the three-object case). -/
def renderArgsOptions (objs : List JSVal) : JSObj :=
  jsAssignF [] (jsAssignSource (jsOrEmptyObj
    ((if objs.length == 3 then objs.filter (fun a => !(jsIsNull a))
      else objs).getD 1 .undefined)))

/-- The acceptance condition of the render-argument contract as the code
enforces it: every argument is a string, boolean `false`, or object-typed
(null and mapped undefined included); at most one string-or-false argument;
at most two object-typed arguments unless exactly three appear and at least
one is a null placeholder; and a templateLang entry of the derived options
object must be undefined, or else be a string or `false` while no language
override was set positionally and no three-object placeholder call was
made. -/
def acceptsRenderArgs (args : List JSVal) : Bool :=
  ((mapRenderArgs args).all (fun a => !(invalidRenderArg a))) &&
  (((mapRenderArgs args).filter langOverrideArg).length ≤ 1) &&
  ((((mapRenderArgs args).filter objectTypedArg).length ≤ 2) ||
    ((((mapRenderArgs args).filter objectTypedArg).length == 3) &&
      (((mapRenderArgs args).filter objectTypedArg).any jsIsNull))) &&
  (jsIsUndefined (jsGetF
      (renderArgsOptions ((mapRenderArgs args).filter objectTypedArg))
      "templateLang") ||
    ((!(((mapRenderArgs args).filter langOverrideArg).length == 1)) &&
      (!((((mapRenderArgs args).filter objectTypedArg).length == 3))) &&
      ((jsTypeof (jsGetF
          (renderArgsOptions ((mapRenderArgs args).filter objectTypedArg))
          "templateLang") == "string") ||
        ((jsTypeof (jsGetF
            (renderArgsOptions ((mapRenderArgs args).filter objectTypedArg))
            "templateLang") == "boolean") &&
          (!(jsTruthy (jsGetF
              (renderArgsOptions ((mapRenderArgs args).filter objectTypedArg))
              "templateLang")))))))

/-- C3 counterexample: an argument list conforming to the claimed
arity/type contract (no string-or-false argument, exactly two non-null
object-typed arguments, every argument of an accepted type) is nonetheless
rejected, because the options object carries a templateLang entry that is
neither a string nor `false`. -/
theorem renderArgs_conforming_list_rejected_cex :
    ((mapRenderArgs [JSVal.obj [], JSVal.obj [("templateLang", JSVal.num 5)]]).all
      (fun a => !(invalidRenderArg a))) = true ∧
    ((mapRenderArgs [JSVal.obj [], JSVal.obj [("templateLang", JSVal.num 5)]]).filter
      langOverrideArg).length = 0 ∧
    ((mapRenderArgs [JSVal.obj [], JSVal.obj [("templateLang", JSVal.num 5)]]).filter
      objectTypedArg).length = 2 ∧
    (∀ a ∈ [JSVal.obj [], JSVal.obj [("templateLang", JSVal.num 5)]],
      jsIsNull a = false) ∧
    parseRenderArgs [] []
      [JSVal.obj [], JSVal.obj [("templateLang", JSVal.num 5)]] =
      Except.error "invalid arguments" := by
  refine ⟨by decide, by decide, by decide, by decide, rfl⟩

/-- C3 (amended): for one to three extra positional arguments, the render
template function accepts the list exactly when the acceptance condition
holds: all arguments of accepted types, at most one string-or-false
language override in any position, at most two object-typed arguments
(three only when one is a null placeholder), and a well-formed,
non-conflicting templateLang entry in the derived options object; every
other list raises the invalid-arguments error. -/
theorem renderArgs_acceptance_characterization
    (defaultData defaultOptions : JSObj) (args : List JSVal)
    (h1 : 1 ≤ args.length) (h3 : args.length ≤ 3) :
    (∃ v, parseRenderArgs defaultData defaultOptions args = Except.ok v) ↔
      acceptsRenderArgs args = true := by
  have hpos : args.length > 0 := h1
  unfold parseRenderArgs acceptsRenderArgs
  rw [if_pos hpos]
  by_cases hinv : ((mapRenderArgs args).filter invalidRenderArg).length > 0
  · rw [if_pos hinv]
    have hall : ((mapRenderArgs args).all fun a => !(invalidRenderArg a))
        = false := by
      have hne : (mapRenderArgs args).filter invalidRenderArg ≠ [] := by
        intro hh
        rw [hh] at hinv
        simp at hinv
      obtain ⟨a, ha⟩ := List.exists_mem_of_ne_nil _ hne
      rw [List.mem_filter] at ha
      apply Bool.eq_false_iff.mpr
      intro hcontra
      rw [List.all_eq_true] at hcontra
      have h2 := hcontra a ha.1
      rw [ha.2] at h2
      simp at h2
    rw [hall]
    simp
  · rw [if_neg hinv]
    have hall : ((mapRenderArgs args).all fun a => !(invalidRenderArg a))
        = true := by
      rw [List.all_eq_true]
      intro a ha
      by_contra hc
      have hc2 : invalidRenderArg a = true := by
        cases hi : invalidRenderArg a
        · rw [hi] at hc
          simp at hc
        · rfl
      apply hinv
      have hmem : a ∈ (mapRenderArgs args).filter invalidRenderArg :=
        List.mem_filter.mpr ⟨ha, hc2⟩
      exact List.length_pos.mpr (List.ne_nil_of_mem hmem)
    rw [hall]
    have hmlen : (mapRenderArgs args).length = args.length := by
      simp [mapRenderArgs]
    have hofacts := List.length_filter_le objectTypedArg (mapRenderArgs args)
    rcases hl : (mapRenderArgs args).filter langOverrideArg with
      _ | ⟨a, _ | ⟨b, tl⟩⟩
    · -- no language override argument
      rcases ho : (mapRenderArgs args).filter objectTypedArg with
        _ | ⟨o1, _ | ⟨o2, _ | ⟨o3, _ | ⟨o4, tl2⟩⟩⟩⟩
      · simp [renderArgsOptions, jsOrEmptyObj, jsTruthy, jsAssignSource,
          jsAssignF, jsGetF, jsIsUndefined]
      · simp [renderArgsOptions, jsOrEmptyObj, jsTruthy, jsAssignSource,
          jsAssignF, jsGetF, jsIsUndefined]
      · -- two object arguments: the second is the options object
        simp only [renderArgsOptions, List.length_cons, List.length_nil,
          List.getD, List.get?, Option.getD_some, Nat.reduceAdd]
        generalize jsGetF (jsAssignF [] (jsAssignSource (jsOrEmptyObj o2)))
          "templateLang" = otl
        by_cases hu : jsIsUndefined otl = true
        · simp [hu]
        · have hu2 : jsIsUndefined otl = false := by simpa using hu
          by_cases hs : (jsTypeof otl == "string" ||
              jsTypeof otl == "boolean" && !jsTruthy otl) = true
          · simp [hu2, hs]
          · have hs2 : (jsTypeof otl == "string" ||
                jsTypeof otl == "boolean" && !jsTruthy otl) = false := by
              simpa using hs
            simp [hu2, hs2]
      · -- three object-typed arguments: only placeholder calls are accepted
        have hany : ([o1, o2, o3].any jsIsNull) =
            (jsIsNull o1 || jsIsNull o2 || jsIsNull o3) := by
          cases hn1 : jsIsNull o1 <;> cases hn2 : jsIsNull o2 <;>
            cases hn3 : jsIsNull o3 <;> simp [hn1, hn2, hn3]
        by_cases hnull : (jsIsNull o1 || jsIsNull o2 || jsIsNull o3) = true
        · have hopts : renderArgsOptions [o1, o2, o3] =
              jsAssignF [] (jsAssignSource (jsOrEmptyObj
                ((List.filter (fun a => !(jsIsNull a)) [o1, o2, o3]).getD 1
                  JSVal.undefined))) := rfl
          rw [hopts]
          simp only [hnull, if_true]
          generalize jsGetF (jsAssignF [] (jsAssignSource (jsOrEmptyObj
            ((List.filter (fun a => !(jsIsNull a)) [o1, o2, o3]).getD 1
              JSVal.undefined)))) "templateLang" = otl
          by_cases hu : jsIsUndefined otl = true
          · simp [hu, hany, hnull]
          · have hu2 : jsIsUndefined otl = false := by simpa using hu
            simp [hu2, hany, hnull]
        · have hnull2 : (jsIsNull o1 || jsIsNull o2 || jsIsNull o3) = false :=
            by simpa using hnull
          simp [hnull2, hany]
      · -- more than three object-typed arguments is impossible here
        rw [ho] at hofacts
        simp at hofacts
        omega
    · -- exactly one language override argument: the override is set
      rcases ho : (mapRenderArgs args).filter objectTypedArg with
        _ | ⟨o1, _ | ⟨o2, _ | ⟨o3, _ | ⟨o4, tl2⟩⟩⟩⟩
      · simp [renderArgsOptions, jsOrEmptyObj, jsTruthy, jsAssignSource,
          jsAssignF, jsGetF, jsIsUndefined]
      · simp [renderArgsOptions, jsOrEmptyObj, jsTruthy, jsAssignSource,
          jsAssignF, jsGetF, jsIsUndefined]
      · simp only [renderArgsOptions, List.length_cons, List.length_nil,
          List.getD, List.get?, Option.getD_some, Nat.reduceAdd]
        generalize jsGetF (jsAssignF [] (jsAssignSource (jsOrEmptyObj o2)))
          "templateLang" = otl
        by_cases hu : jsIsUndefined otl = true
        · simp [hu]
        · have hu2 : jsIsUndefined otl = false := by simpa using hu
          simp [hu2]
      · have hany : ([o1, o2, o3].any jsIsNull) =
            (jsIsNull o1 || jsIsNull o2 || jsIsNull o3) := by
          cases hn1 : jsIsNull o1 <;> cases hn2 : jsIsNull o2 <;>
            cases hn3 : jsIsNull o3 <;> simp [hn1, hn2, hn3]
        by_cases hnull : (jsIsNull o1 || jsIsNull o2 || jsIsNull o3) = true
        · have hopts : renderArgsOptions [o1, o2, o3] =
              jsAssignF [] (jsAssignSource (jsOrEmptyObj
                ((List.filter (fun a => !(jsIsNull a)) [o1, o2, o3]).getD 1
                  JSVal.undefined))) := rfl
          rw [hopts]
          simp only [hnull, if_true]
          generalize jsGetF (jsAssignF [] (jsAssignSource (jsOrEmptyObj
            ((List.filter (fun a => !(jsIsNull a)) [o1, o2, o3]).getD 1
              JSVal.undefined)))) "templateLang" = otl
          by_cases hu : jsIsUndefined otl = true
          · simp [hu, hany, hnull]
          · have hu2 : jsIsUndefined otl = false := by simpa using hu
            simp [hu2, hany, hnull]
        · have hnull2 : (jsIsNull o1 || jsIsNull o2 || jsIsNull o3) = false :=
            by simpa using hnull
          simp [hnull2, hany]
      · rw [ho] at hofacts
        simp at hofacts
        omega
    · -- two or more language override arguments are rejected
      have h2 : ¬ ((a :: b :: tl).length ≤ 1) := by
        simp [List.length_cons]
      simp [h2]

/-- Witness for the amended C3 on a single string argument. -/
theorem renderArgs_acceptance_characterization_witness :
    (∃ v, parseRenderArgs [] [] [JSVal.str "md"] = Except.ok v) ↔
      acceptsRenderArgs [JSVal.str "md"] = true :=
  renderArgs_acceptance_characterization [] [] [JSVal.str "md"] (by decide)
    (by decide)
